import Mathlib

set_option maxHeartbeats 1000000

namespace AuthOne

/-- Modelled from the spec: the backend authorization core (Rule Store,
Decision Engine, Binding Synchronizer) is not present in the repository
sources; only the frontend client, the integration script and the README
document it.  The data model follows spec section 3: a Permission is
`{id, name, description}` where `name` is a `resource:action` string. -/
structure Permission where
  id : String
  name : String
  description : String
deriving DecidableEq, Repr

/-- Modelled from the spec: a Role is
`{id, tenant_id, name, description, permission_ids}` (section 3). -/
structure Role where
  id : String
  tenant_id : String
  name : String
  description : String
  permission_ids : List String
deriving DecidableEq, Repr

/-- Modelled from the spec: a Group is
`{id, tenant_id, name, description, role_ids}` (section 3). -/
structure Group where
  id : String
  tenant_id : String
  name : String
  description : String
  role_ids : List String
deriving DecidableEq, Repr

/-- Modelled from the spec: an Account is
`{id, tenant_id, username, email, role_ids, group_ids}` (section 3);
`role_ids` are direct role grants, `group_ids` are group memberships. -/
structure Account where
  id : String
  tenant_id : String
  username : String
  email : String
  role_ids : List String
  group_ids : List String
deriving DecidableEq, Repr

/-- Modelled from the spec: the Rule Store holds the authoritative set of
tenant-tagged policy facts (section 4.1); it is the single piece of mutable
shared state, here represented as the entity records with their
relationship fields. -/
structure Store where
  permissions : List Permission
  roles : List Role
  groups : List Group
  accounts : List Account
deriving DecidableEq, Repr

/-- Modelled from the spec: the check verdict `{allowed: bool, reason?: string}`
(section 6, mirrored by the frontend AccessCheckResponse). -/
structure CheckResult where
  allowed : Bool
  reason : Option String
deriving DecidableEq, Repr

/-- Modelled from the spec: the error taxonomy of section 7 —
ValidationError and NotFoundError propagate to the caller unchanged. -/
inductive ApiError where
  | validationError (msg : String)
  | notFoundError (msg : String)
deriving DecidableEq, Repr

def findPermission (s : Store) (pid : String) : Option Permission :=
  s.permissions.find? (fun p => p.id == pid)

def findRole (s : Store) (rid : String) : Option Role :=
  s.roles.find? (fun r => r.id == rid)

def findGroup (s : Store) (gid : String) : Option Group :=
  s.groups.find? (fun g => g.id == gid)

def findAccount (s : Store) (aid : String) : Option Account :=
  s.accounts.find? (fun a => a.id == aid)

/-- Modelled from the spec: step 2 of the decision algorithm (section 4.2):
`directRoles = { r : r ∈ account.role_ids, role(r).tenant_id == tenantId }`.
The check tenant is optional in transport (section 6), so an absent tenant
matches no role. -/
def directRoles (s : Store) (a : Account) (t : Option String) : List Role :=
  (a.role_ids.filterMap (findRole s)).filter (fun r => t == some r.tenant_id)

/-- Modelled from the spec: step 3 of the decision algorithm (section 4.2):
roles inherited through groups whose tenant matches, themselves filtered to
roles whose tenant matches. -/
def groupRoles (s : Store) (a : Account) (t : Option String) : List Role :=
  ((a.group_ids.filterMap (findGroup s)).filter (fun g => t == some g.tenant_id)).flatMap
    (fun g => (g.role_ids.filterMap (findRole s)).filter (fun r => t == some r.tenant_id))

/-- Modelled from the spec: step 4 of the decision algorithm (section 4.2):
`effectiveRoles = directRoles ∪ groupRoles`. -/
def effectiveRoles (s : Store) (a : Account) (t : Option String) : List Role :=
  directRoles s a t ++ groupRoles s a t

/-- Modelled from the spec: the Rule Store core query (section 4.1):
`effectivePermissions(accountId, tenantId) -> set<PermissionName>` — the
permission ids of all effective roles, resolved to permission name strings
(step 5 of section 4.2). -/
def effectivePermissions (s : Store) (accountId : String) (t : Option String) : List String :=
  match findAccount s accountId with
  | none => []
  | some a =>
      ((effectiveRoles s a t).flatMap (fun r => r.permission_ids)).filterMap
        (fun pid => (findPermission s pid).map (fun p => p.name))

/-- Modelled from the spec: the Decision Engine predicate
`check(accountId, tenantId, resource, action) -> {allowed, reason}`
(section 4.2): unknown account denies with reason "unknown account";
otherwise `requested = resource + ":" + action` is matched by exact string
equality against the effective permission names. -/
def check (s : Store) (accountId : String) (tenantId : Option String)
    (resource action : String) : CheckResult :=
  match findAccount s accountId with
  | none => { allowed := false, reason := some "unknown account" }
  | some _ =>
      let requested := resource ++ ":" ++ action
      if requested ∈ effectivePermissions s accountId tenantId then
        { allowed := true, reason := none }
      else
        { allowed := false, reason := some "insufficient permissions" }

/-- Modelled from the spec: the failure semantics of section 4.2 / 7 — a
check with an empty `resource` or `action` string is rejected with a
ValidationError before evaluation; a structurally valid check that denies
is a normal successful response. -/
def checkEndpoint (s : Store) (accountId : String) (tenantId : Option String)
    (resource action : String) : Except ApiError CheckResult :=
  if resource = "" then Except.error (ApiError.validationError "empty resource")
  else if action = "" then Except.error (ApiError.validationError "empty action")
  else Except.ok (check s accountId tenantId resource action)

def updateIf (p : α → Bool) (f : α → α) (l : List α) : List α :=
  l.map (fun x => if p x then f x else x)

def insertIfAbsent (x : String) (l : List String) : List String :=
  if x ∈ l then l else l ++ [x]

def removeAll (x : String) (l : List String) : List String :=
  l.filter (fun y => y != x)

/-- Modelled from the spec: `bindPermissionToRole(role_id, permission_id)`
(section 6): idempotent, returns a not-found error if an id is unknown,
otherwise adds the edge (adding an existing edge is a successful no-op). -/
def bindPermissionToRole (s : Store) (roleId permissionId : String) :
    Except ApiError Store :=
  match findRole s roleId, findPermission s permissionId with
  | some _, some _ =>
      let f := fun (r : Role) => { r with permission_ids := insertIfAbsent permissionId r.permission_ids }
      Except.ok { s with roles := updateIf (fun r => r.id == roleId) f s.roles }
  | _, _ => Except.error (ApiError.notFoundError "unknown role or permission")

/-- Modelled from the spec: `bindRoleToAccount(account_id, role_id)`
(section 6); a cross-tenant bind succeeds (the role is not excluded at bind
time, section 4.2 step 2). -/
def bindRoleToAccount (s : Store) (accountId roleId : String) :
    Except ApiError Store :=
  match findAccount s accountId, findRole s roleId with
  | some _, some _ =>
      let f := fun (a : Account) => { a with role_ids := insertIfAbsent roleId a.role_ids }
      Except.ok { s with accounts := updateIf (fun a => a.id == accountId) f s.accounts }
  | _, _ => Except.error (ApiError.notFoundError "unknown account or role")

/-- Modelled from the spec: `bindRoleToGroup(group_id, role_id)` (section 6). -/
def bindRoleToGroup (s : Store) (groupId roleId : String) :
    Except ApiError Store :=
  match findGroup s groupId, findRole s roleId with
  | some _, some _ =>
      let f := fun (g : Group) => { g with role_ids := insertIfAbsent roleId g.role_ids }
      Except.ok { s with groups := updateIf (fun g => g.id == groupId) f s.groups }
  | _, _ => Except.error (ApiError.notFoundError "unknown group or role")

/-- Modelled from the spec: `bindGroupToAccount(account_id, group_id)`
(section 6). -/
def bindGroupToAccount (s : Store) (accountId groupId : String) :
    Except ApiError Store :=
  match findAccount s accountId, findGroup s groupId with
  | some _, some _ =>
      let f := fun (a : Account) => { a with group_ids := insertIfAbsent groupId a.group_ids }
      Except.ok { s with accounts := updateIf (fun a => a.id == accountId) f s.accounts }
  | _, _ => Except.error (ApiError.notFoundError "unknown account or group")

/-- Modelled from the spec: unbind mirrors the bind path with
`Rule Store.removeEdge` (section 4.3); removing an absent edge is a no-op. -/
def unbindPermissionFromRole (s : Store) (roleId permissionId : String) : Store :=
  let f := fun (r : Role) => { r with permission_ids := removeAll permissionId r.permission_ids }
  { s with roles := updateIf (fun r => r.id == roleId) f s.roles }

/-- Modelled from the spec: removal of a direct account-role edge
(section 4.3). -/
def unbindRoleFromAccount (s : Store) (accountId roleId : String) : Store :=
  let f := fun (a : Account) => { a with role_ids := removeAll roleId a.role_ids }
  { s with accounts := updateIf (fun a => a.id == accountId) f s.accounts }

/-- Modelled from the spec: removal of a group-role edge (section 4.3). -/
def unbindRoleFromGroup (s : Store) (groupId roleId : String) : Store :=
  let f := fun (g : Group) => { g with role_ids := removeAll roleId g.role_ids }
  { s with groups := updateIf (fun g => g.id == groupId) f s.groups }

/-- Modelled from the spec: removal of an account-group edge (section 4.3). -/
def unbindGroupFromAccount (s : Store) (accountId groupId : String) : Store :=
  let f := fun (a : Account) => { a with group_ids := removeAll groupId a.group_ids }
  { s with accounts := updateIf (fun a => a.id == accountId) f s.accounts }

/-- One of the four binding operations of section 6, as data. -/
inductive BindOp where
  | permToRole (roleId permissionId : String)
  | roleToAccount (accountId roleId : String)
  | roleToGroup (groupId roleId : String)
  | groupToAccount (accountId groupId : String)
deriving DecidableEq, Repr

def runBind : BindOp → Store → Except ApiError Store
  | BindOp.permToRole rid pid, s => bindPermissionToRole s rid pid
  | BindOp.roleToAccount aid rid, s => bindRoleToAccount s aid rid
  | BindOp.roleToGroup gid rid, s => bindRoleToGroup s gid rid
  | BindOp.groupToAccount aid gid, s => bindGroupToAccount s aid gid

/-- The state after a bind: the new store on success, the old store when the
bind reports a not-found error (no partial bind occurs, section 7). -/
def applyBind (b : BindOp) (s : Store) : Store :=
  match runBind b s with
  | Except.ok s2 => s2
  | Except.error _ => s

/-- One of the four unbind operations, as data. -/
inductive UnbindOp where
  | permFromRole (roleId permissionId : String)
  | roleFromAccount (accountId roleId : String)
  | roleFromGroup (groupId roleId : String)
  | groupFromAccount (accountId groupId : String)
deriving DecidableEq, Repr

def applyUnbind : UnbindOp → Store → Store
  | UnbindOp.permFromRole rid pid, s => unbindPermissionFromRole s rid pid
  | UnbindOp.roleFromAccount aid rid, s => unbindRoleFromAccount s aid rid
  | UnbindOp.roleFromGroup gid rid, s => unbindRoleFromGroup s gid rid
  | UnbindOp.groupFromAccount aid gid, s => unbindGroupFromAccount s aid gid

/-- The entities of the integration script (src/unnamed/part_000): permissions
doc:read and doc:write, roles reader and editor in tenant t1, accounts alice
and bob in t1 and x in t2, all created before any binding. -/
def scenarioBase : Store :=
  { permissions :=
      [{ id := "PR", name := "doc:read", description := "" },
       { id := "PW", name := "doc:write", description := "" }],
    roles :=
      [{ id := "RR", tenant_id := "t1", name := "reader", description := "", permission_ids := [] },
       { id := "RE", tenant_id := "t1", name := "editor", description := "", permission_ids := [] }],
    groups := [],
    accounts :=
      [{ id := "AA", tenant_id := "t1", username := "alice", email := "alice@example.com",
         role_ids := [], group_ids := [] },
       { id := "AB", tenant_id := "t1", username := "bob", email := "bob@example.com",
         role_ids := [], group_ids := [] },
       { id := "AT2", tenant_id := "t2", username := "x", email := "x@example.com",
         role_ids := [], group_ids := [] }] }

/-- The binds of the integration script, in script order; the last one is the
cross-tenant soft bind of role reader (t1) to account x (t2). -/
def scenarioBinds : List BindOp :=
  [BindOp.permToRole "RR" "PR",
   BindOp.permToRole "RE" "PR",
   BindOp.permToRole "RE" "PW",
   BindOp.roleToAccount "AA" "RR",
   BindOp.roleToAccount "AB" "RE",
   BindOp.roleToAccount "AT2" "RR"]

def scenarioStore : Store :=
  scenarioBinds.foldl (fun s b => applyBind b s) scenarioBase

/-- The store after only the first bind of the integration script. -/
def scenarioStore1 : Store :=
  applyBind (BindOp.permToRole "RR" "PR") scenarioBase

/-- Permission doc:read of the group-inheritance stores. -/
def permP : Permission := { id := "p", name := "doc:read", description := "" }

/-- Role r (tenant t1) holding permission p. -/
def roleR : Role :=
  { id := "r", tenant_id := "t1", name := "reader", description := "", permission_ids := ["p"] }

/-- Group g with role r bound, living in tenant t2 (mismatching the role tenant). -/
def groupGmis : Group :=
  { id := "g", tenant_id := "t2", name := "grp", description := "", role_ids := ["r"] }

/-- Group g with role r bound, living in tenant t1 (matching the role tenant). -/
def groupGok : Group :=
  { id := "g", tenant_id := "t1", name := "grp", description := "", role_ids := ["r"] }

/-- Account a (tenant t1), a member of group g, no direct roles. -/
def accountA : Account :=
  { id := "a", tenant_id := "t1", username := "u", email := "u@example.com",
    role_ids := [], group_ids := ["g"] }

/-- A store exercising the group-inheritance path where the group tenant (t2)
differs from the role tenant (t1). -/
def groupMismatchStore : Store :=
  { permissions := [permP], roles := [roleR], groups := [groupGmis], accounts := [accountA] }

/-- A store exercising the group-inheritance path where group and role share
tenant t1. -/
def groupOkStore : Store :=
  { permissions := [permP], roles := [roleR], groups := [groupGok], accounts := [accountA] }

/-- One store extends another: every lookup that succeeds in the first
succeeds in the second with the same tenant tag and at least the same
relationship edges.  Every bind operation moves the store up this order and
every unbind moves it down. -/
structure StoreLe (s s2 : Store) : Prop where
  perm : ∀ pid p, findPermission s pid = some p → findPermission s2 pid = some p
  role : ∀ rid r, findRole s rid = some r → ∃ r2, findRole s2 rid = some r2 ∧
    r2.tenant_id = r.tenant_id ∧ ∀ pid ∈ r.permission_ids, pid ∈ r2.permission_ids
  grp : ∀ gid g, findGroup s gid = some g → ∃ g2, findGroup s2 gid = some g2 ∧
    g2.tenant_id = g.tenant_id ∧ ∀ rid ∈ g.role_ids, rid ∈ g2.role_ids
  acct : ∀ aid a, findAccount s aid = some a → ∃ a2, findAccount s2 aid = some a2 ∧
    (∀ rid ∈ a.role_ids, rid ∈ a2.role_ids) ∧ ∀ gid ∈ a.group_ids, gid ∈ a2.group_ids


namespace Frontend

/-- The request shape of the frontend client (src/frontend/api.ts, interface
AccessCheckRequest): `account_id`, `resource`, `action` are required strings,
`tenant_id` is optional. -/
structure AccessCheckRequest where
  account_id : String
  resource : String
  action : String
  tenant_id : Option String
deriving DecidableEq, Repr

/-- The response shape of the frontend client (src/frontend/api.ts, interface
AccessCheckResponse): `allowed` plus an optional `reason`. -/
structure AccessCheckResponse where
  allowed : Bool
  reason : Option String
deriving DecidableEq, Repr

/-- A single HTTP POST as issued by the axios client: a path and a JSON
object body given as key/value pairs. -/
structure HttpPost where
  path : String
  body : List (String × String)
deriving DecidableEq, Repr

/-- The JSON body axios produces for an AccessCheckRequest: JSON
serialization of the request object field by field; a field that is absent
(undefined) is omitted from the object rather than defaulted. -/
def serializeAccessCheckRequest (r : AccessCheckRequest) : List (String × String) :=
  [("account_id", r.account_id), ("resource", r.resource), ("action", r.action)] ++
    (match r.tenant_id with
     | some t => [("tenant_id", t)]
     | none => [])

/-- The frontend `checkAccess` (src/frontend/api.ts lines 153-155): it POSTs
the request to "/access/check" and resolves to the response body
(`response.data`) unchanged.  The HTTP layer is abstracted as a function
from posts to responses; the first component of the result is the list of
posts issued during the call. -/
def checkAccess (server : HttpPost → AccessCheckResponse) (r : AccessCheckRequest) :
    List HttpPost × AccessCheckResponse :=
  let msg : HttpPost := { path := "/access/check", body := serializeAccessCheckRequest r }
  ([msg], server msg)

end Frontend

theorem mem_insertIfAbsent_self (x : String) (l : List String) : x ∈ insertIfAbsent x l := by
  unfold insertIfAbsent
  split
  · assumption
  · simp

theorem mem_insertIfAbsent_of_mem (x y : String) (l : List String) (h : y ∈ l) :
    y ∈ insertIfAbsent x l := by
  unfold insertIfAbsent
  split
  · exact h
  · simp [h]

theorem insertIfAbsent_of_mem (x : String) (l : List String) (h : x ∈ l) :
    insertIfAbsent x l = l := by
  unfold insertIfAbsent
  simp [h]

theorem insertIfAbsent_insertIfAbsent (x : String) (l : List String) :
    insertIfAbsent x (insertIfAbsent x l) = insertIfAbsent x l :=
  insertIfAbsent_of_mem x _ (mem_insertIfAbsent_self x l)

theorem mem_of_mem_removeAll (x y : String) (l : List String) (h : y ∈ removeAll x l) :
    y ∈ l :=
  (List.mem_filter.mp h).1

theorem find?_updateIf {α : Type} (p q : α → Bool) (f : α → α) (hq : ∀ x, q (f x) = q x)
    (l : List α) :
    (updateIf p f l).find? q = Option.map (fun x => if p x then f x else x) (l.find? q) := by
  induction l with
  | nil => rfl
  | cons a t ih =>
    have hg : q (if p a then f a else a) = q a := by
      by_cases hpa : p a <;> simp [hpa, hq]
    simp only [updateIf, List.map_cons, List.find?_cons, hg] at *
    cases hqa : q a
    · simpa [hqa] using ih
    · simp [hqa]

theorem updateIf_eq_self {α : Type} (p : α → Bool) (f : α → α) (l : List α)
    (h : ∀ x ∈ l, p x = true → f x = x) : updateIf p f l = l := by
  induction l with
  | nil => rfl
  | cons a t ih =>
    have h1 : (if p a then f a else a) = a := by
      by_cases hpa : p a
      · simp [hpa, h a (by simp) hpa]
      · simp [hpa]
    have h2 : updateIf p f t = t := ih (fun x hx hpx => h x (by simp [hx]) hpx)
    simp only [updateIf, List.map_cons] at h2 ⊢
    rw [h1, h2]

theorem updateIf_updateIf {α : Type} (p : α → Bool) (f : α → α)
    (hf : ∀ x, f (f x) = f x) (l : List α) :
    updateIf p f (updateIf p f l) = updateIf p f l := by
  apply updateIf_eq_self
  intro x hx hpx
  unfold updateIf at hx
  simp only [List.mem_map] at hx
  obtain ⟨y, _, rfl⟩ := hx
  by_cases hpy : p y
  · simp only [hpy, if_true]
    exact hf y
  · simp only [hpy, if_false] at hpx
    exact absurd hpx hpy

theorem mem_directRoles (s : Store) (a : Account) (t : Option String) (r : Role) :
    r ∈ directRoles s a t ↔
      (∃ rid ∈ a.role_ids, findRole s rid = some r) ∧ t = some r.tenant_id := by
  unfold directRoles
  simp only [List.mem_filter, List.mem_filterMap, beq_iff_eq]

theorem mem_groupRoles (s : Store) (a : Account) (t : Option String) (r : Role) :
    r ∈ groupRoles s a t ↔
      ∃ g, (∃ gid ∈ a.group_ids, findGroup s gid = some g) ∧ t = some g.tenant_id ∧
        (∃ rid ∈ g.role_ids, findRole s rid = some r) ∧ t = some r.tenant_id := by
  unfold groupRoles
  simp only [List.mem_flatMap, List.mem_filter, List.mem_filterMap, beq_iff_eq]
  tauto

theorem mem_effectiveRoles (s : Store) (a : Account) (t : Option String) (r : Role) :
    r ∈ effectiveRoles s a t ↔
      ((∃ rid ∈ a.role_ids, findRole s rid = some r) ∧ t = some r.tenant_id) ∨
      (∃ g, (∃ gid ∈ a.group_ids, findGroup s gid = some g) ∧ t = some g.tenant_id ∧
        (∃ rid ∈ g.role_ids, findRole s rid = some r) ∧ t = some r.tenant_id) := by
  unfold effectiveRoles
  rw [List.mem_append, mem_directRoles, mem_groupRoles]

theorem mem_effectivePermissions (s : Store) (aid : String) (t : Option String) (nm : String) :
    nm ∈ effectivePermissions s aid t ↔
      ∃ a, findAccount s aid = some a ∧
        ∃ r, r ∈ effectiveRoles s a t ∧ ∃ pid ∈ r.permission_ids,
          ∃ p, findPermission s pid = some p ∧ p.name = nm := by
  unfold effectivePermissions
  cases ha : findAccount s aid with
  | none => simp [ha]
  | some a =>
    simp only [ha, List.mem_filterMap, List.mem_flatMap, Option.map_eq_some', Option.some.injEq]
    constructor
    · rintro ⟨pid, ⟨r, hr, hpid⟩, p, hp, hnm⟩
      exact ⟨a, rfl, r, hr, pid, hpid, p, hp, hnm⟩
    · rintro ⟨a2, ha2, r, hr, pid, hpid, p, hp, hnm⟩
      cases ha2
      exact ⟨pid, ⟨r, hr, hpid⟩, p, hp, hnm⟩

theorem check_allowed_iff (s : Store) (aid : String) (t : Option String) (res act : String) :
    (check s aid t res act).allowed = true ↔
      (∃ a, findAccount s aid = some a) ∧ (res ++ ":" ++ act) ∈ effectivePermissions s aid t := by
  unfold check
  cases ha : findAccount s aid with
  | none => simp [ha]
  | some a =>
    simp only [ha]
    by_cases hm : (res ++ ":" ++ act) ∈ effectivePermissions s aid t
    · simp [hm]
    · simp [hm]

theorem findRole_update (s : Store) (P : Role → Bool) (f : Role → Role)
    (hid : ∀ r, (f r).id = r.id) (rid : String) :
    findRole { s with roles := updateIf P f s.roles } rid =
      Option.map (fun r => if P r then f r else r) (findRole s rid) :=
  find?_updateIf P (fun r => r.id == rid) f (fun x => by simp [hid]) s.roles

theorem findGroup_update (s : Store) (P : Group → Bool) (f : Group → Group)
    (hid : ∀ g, (f g).id = g.id) (gid : String) :
    findGroup { s with groups := updateIf P f s.groups } gid =
      Option.map (fun g => if P g then f g else g) (findGroup s gid) :=
  find?_updateIf P (fun g => g.id == gid) f (fun x => by simp [hid]) s.groups

theorem findAccount_update (s : Store) (P : Account → Bool) (f : Account → Account)
    (hid : ∀ a, (f a).id = a.id) (aid : String) :
    findAccount { s with accounts := updateIf P f s.accounts } aid =
      Option.map (fun a => if P a then f a else a) (findAccount s aid) :=
  find?_updateIf P (fun a => a.id == aid) f (fun x => by simp [hid]) s.accounts

theorem storeLe_refl (s : Store) : StoreLe s s where
  perm := fun _ _ h => h
  role := fun _ r h => ⟨r, h, rfl, fun _ hp => hp⟩
  grp := fun _ g h => ⟨g, h, rfl, fun _ hr => hr⟩
  acct := fun _ a h => ⟨a, h, fun _ hr => hr, fun _ hg => hg⟩

theorem storeLe_bindPermissionToRole (s s2 : Store) (roleId permissionId : String)
    (h : bindPermissionToRole s roleId permissionId = Except.ok s2) : StoreLe s s2 := by
  unfold bindPermissionToRole at h
  cases hr : findRole s roleId with
  | none => rw [hr] at h; cases hp : findPermission s permissionId <;> rw [hp] at h <;> cases h
  | some r0 =>
    cases hp : findPermission s permissionId with
    | none => rw [hr, hp] at h; cases h
    | some p0 =>
      rw [hr, hp] at h
      cases h
      refine ⟨fun _ _ h2 => h2, ?_, fun _ g h2 => ⟨g, h2, rfl, fun _ x => x⟩,
        fun _ a h2 => ⟨a, h2, fun _ x => x, fun _ x => x⟩⟩
      intro rid r h2
      have hru := findRole_update s (fun r => r.id == roleId)
        (fun r => { r with permission_ids := insertIfAbsent permissionId r.permission_ids })
        (fun r => rfl) rid
      rw [hru, h2]
      by_cases hP : r.id == roleId
      · exact ⟨{ r with permission_ids := insertIfAbsent permissionId r.permission_ids },
          congrArg some (if_pos hP), rfl, fun pid hpid => mem_insertIfAbsent_of_mem _ _ _ hpid⟩
      · exact ⟨r, congrArg some (if_neg hP), rfl, fun _ hpid => hpid⟩

theorem storeLe_bindRoleToAccount (s s2 : Store) (accountId roleId : String)
    (h : bindRoleToAccount s accountId roleId = Except.ok s2) : StoreLe s s2 := by
  unfold bindRoleToAccount at h
  cases ha : findAccount s accountId with
  | none => rw [ha] at h; cases hr : findRole s roleId <;> rw [hr] at h <;> cases h
  | some a0 =>
    cases hr : findRole s roleId with
    | none => rw [ha, hr] at h; cases h
    | some r0 =>
      rw [ha, hr] at h
      cases h
      refine ⟨fun _ _ h2 => h2, fun _ r h2 => ⟨r, h2, rfl, fun _ x => x⟩,
        fun _ g h2 => ⟨g, h2, rfl, fun _ x => x⟩, ?_⟩
      intro aid a h2
      have hau := findAccount_update s (fun a => a.id == accountId)
        (fun a => { a with role_ids := insertIfAbsent roleId a.role_ids })
        (fun a => rfl) aid
      rw [hau, h2]
      by_cases hP : a.id == accountId
      · exact ⟨{ a with role_ids := insertIfAbsent roleId a.role_ids },
          congrArg some (if_pos hP), fun rid hrid => mem_insertIfAbsent_of_mem _ _ _ hrid,
          fun _ hgid => hgid⟩
      · exact ⟨a, congrArg some (if_neg hP), fun _ hrid => hrid, fun _ hgid => hgid⟩

theorem storeLe_bindRoleToGroup (s s2 : Store) (groupId roleId : String)
    (h : bindRoleToGroup s groupId roleId = Except.ok s2) : StoreLe s s2 := by
  unfold bindRoleToGroup at h
  cases hg : findGroup s groupId with
  | none => rw [hg] at h; cases hr : findRole s roleId <;> rw [hr] at h <;> cases h
  | some g0 =>
    cases hr : findRole s roleId with
    | none => rw [hg, hr] at h; cases h
    | some r0 =>
      rw [hg, hr] at h
      cases h
      refine ⟨fun _ _ h2 => h2, fun _ r h2 => ⟨r, h2, rfl, fun _ x => x⟩, ?_,
        fun _ a h2 => ⟨a, h2, fun _ x => x, fun _ x => x⟩⟩
      intro gid g h2
      have hgu := findGroup_update s (fun g => g.id == groupId)
        (fun g => { g with role_ids := insertIfAbsent roleId g.role_ids })
        (fun g => rfl) gid
      rw [hgu, h2]
      by_cases hP : g.id == groupId
      · exact ⟨{ g with role_ids := insertIfAbsent roleId g.role_ids },
          congrArg some (if_pos hP), rfl, fun rid hrid => mem_insertIfAbsent_of_mem _ _ _ hrid⟩
      · exact ⟨g, congrArg some (if_neg hP), rfl, fun _ hrid => hrid⟩

theorem storeLe_bindGroupToAccount (s s2 : Store) (accountId groupId : String)
    (h : bindGroupToAccount s accountId groupId = Except.ok s2) : StoreLe s s2 := by
  unfold bindGroupToAccount at h
  cases ha : findAccount s accountId with
  | none => rw [ha] at h; cases hg : findGroup s groupId <;> rw [hg] at h <;> cases h
  | some a0 =>
    cases hg : findGroup s groupId with
    | none => rw [ha, hg] at h; cases h
    | some g0 =>
      rw [ha, hg] at h
      cases h
      refine ⟨fun _ _ h2 => h2, fun _ r h2 => ⟨r, h2, rfl, fun _ x => x⟩,
        fun _ g h2 => ⟨g, h2, rfl, fun _ x => x⟩, ?_⟩
      intro aid a h2
      have hau := findAccount_update s (fun a => a.id == accountId)
        (fun a => { a with group_ids := insertIfAbsent groupId a.group_ids })
        (fun a => rfl) aid
      rw [hau, h2]
      by_cases hP : a.id == accountId
      · exact ⟨{ a with group_ids := insertIfAbsent groupId a.group_ids },
          congrArg some (if_pos hP), fun _ hrid => hrid,
          fun gid hgid => mem_insertIfAbsent_of_mem _ _ _ hgid⟩
      · exact ⟨a, congrArg some (if_neg hP), fun _ hrid => hrid, fun _ hgid => hgid⟩

theorem effectivePermissions_mono (s s2 : Store) (h : StoreLe s s2) (aid : String)
    (t : Option String) (nm : String) (hm : nm ∈ effectivePermissions s aid t) :
    nm ∈ effectivePermissions s2 aid t := by
  rw [mem_effectivePermissions] at hm ⊢
  obtain ⟨a, ha, r, hr, pid, hpid, p, hp, hnm⟩ := hm
  obtain ⟨a2, ha2, hroles, hgroups⟩ := h.acct aid a ha
  rw [mem_effectiveRoles] at hr
  rcases hr with ⟨⟨rid, hrid, hfr⟩, ht⟩ | ⟨g, ⟨gid, hgid, hfg⟩, htg, ⟨rid, hrid, hfr⟩, ht⟩
  · obtain ⟨r2, hfr2, hten, hperms⟩ := h.role rid r hfr
    refine ⟨a2, ha2, r2, ?_, pid, hperms pid hpid, p, h.perm pid p hp, hnm⟩
    rw [mem_effectiveRoles]
    exact Or.inl ⟨⟨rid, hroles rid hrid, hfr2⟩, by rw [hten]; exact ht⟩
  · obtain ⟨r2, hfr2, hten, hperms⟩ := h.role rid r hfr
    obtain ⟨g2, hfg2, hgten, hgroles⟩ := h.grp gid g hfg
    refine ⟨a2, ha2, r2, ?_, pid, hperms pid hpid, p, h.perm pid p hp, hnm⟩
    rw [mem_effectiveRoles]
    exact Or.inr ⟨g2, ⟨gid, hgroups gid hgid, hfg2⟩, by rw [hgten]; exact htg,
      ⟨rid, hgroles rid hrid, hfr2⟩, by rw [hten]; exact ht⟩

theorem check_allowed_mono (s s2 : Store) (h : StoreLe s s2) (aid : String)
    (t : Option String) (res act : String)
    (hc : (check s aid t res act).allowed = true) :
    (check s2 aid t res act).allowed = true := by
  rw [check_allowed_iff] at hc ⊢
  obtain ⟨⟨a, ha⟩, hm⟩ := hc
  obtain ⟨a2, ha2, _, _⟩ := h.acct aid a ha
  exact ⟨⟨a2, ha2⟩, effectivePermissions_mono s s2 h aid t _ hm⟩

theorem storeLe_applyBind (b : BindOp) (s : Store) : StoreLe s (applyBind b s) := by
  unfold applyBind
  cases hb : runBind b s with
  | error e => exact storeLe_refl s
  | ok s2 =>
    cases b with
    | permToRole rid pid => exact storeLe_bindPermissionToRole s s2 rid pid hb
    | roleToAccount aid rid => exact storeLe_bindRoleToAccount s s2 aid rid hb
    | roleToGroup gid rid => exact storeLe_bindRoleToGroup s s2 gid rid hb
    | groupToAccount aid gid => exact storeLe_bindGroupToAccount s s2 aid gid hb

theorem storeLe_unbindPermissionFromRole (s : Store) (roleId permissionId : String) :
    StoreLe (unbindPermissionFromRole s roleId permissionId) s := by
  refine ⟨fun _ _ h2 => h2, ?_, fun _ g h2 => ⟨g, h2, rfl, fun _ x => x⟩,
    fun _ a h2 => ⟨a, h2, fun _ x => x, fun _ x => x⟩⟩
  intro rid r h2
  have hru := findRole_update s (fun r => r.id == roleId)
    (fun r => { r with permission_ids := removeAll permissionId r.permission_ids })
    (fun r => rfl) rid
  simp only [unbindPermissionFromRole] at h2
  rw [hru, Option.map_eq_some'] at h2
  obtain ⟨r0, hr0, hgr⟩ := h2
  cases hgr
  refine ⟨r0, hr0, ?_, ?_⟩
  · by_cases hP : r0.id == roleId <;> simp [hP]
  · intro pid hpid
    by_cases hP : r0.id == roleId
    · simp only [hP, if_true] at hpid
      exact mem_of_mem_removeAll _ _ _ hpid
    · simpa [hP] using hpid

theorem storeLe_unbindRoleFromAccount (s : Store) (accountId roleId : String) :
    StoreLe (unbindRoleFromAccount s accountId roleId) s := by
  refine ⟨fun _ _ h2 => h2, fun _ r h2 => ⟨r, h2, rfl, fun _ x => x⟩,
    fun _ g h2 => ⟨g, h2, rfl, fun _ x => x⟩, ?_⟩
  intro aid a h2
  have hau := findAccount_update s (fun a => a.id == accountId)
    (fun a => { a with role_ids := removeAll roleId a.role_ids })
    (fun a => rfl) aid
  simp only [unbindRoleFromAccount] at h2
  rw [hau, Option.map_eq_some'] at h2
  obtain ⟨a0, ha0, hga⟩ := h2
  cases hga
  refine ⟨a0, ha0, ?_, ?_⟩
  · intro rid hrid
    by_cases hP : a0.id == accountId
    · simp only [hP, if_true] at hrid
      exact mem_of_mem_removeAll _ _ _ hrid
    · simpa [hP] using hrid
  · intro gid hgid
    by_cases hP : a0.id == accountId
    · simpa [hP] using hgid
    · simpa [hP] using hgid

theorem storeLe_unbindRoleFromGroup (s : Store) (groupId roleId : String) :
    StoreLe (unbindRoleFromGroup s groupId roleId) s := by
  refine ⟨fun _ _ h2 => h2, fun _ r h2 => ⟨r, h2, rfl, fun _ x => x⟩, ?_,
    fun _ a h2 => ⟨a, h2, fun _ x => x, fun _ x => x⟩⟩
  intro gid g h2
  have hgu := findGroup_update s (fun g => g.id == groupId)
    (fun g => { g with role_ids := removeAll roleId g.role_ids })
    (fun g => rfl) gid
  simp only [unbindRoleFromGroup] at h2
  rw [hgu, Option.map_eq_some'] at h2
  obtain ⟨g0, hg0, hgg⟩ := h2
  cases hgg
  refine ⟨g0, hg0, ?_, ?_⟩
  · by_cases hP : g0.id == groupId <;> simp [hP]
  · intro rid hrid
    by_cases hP : g0.id == groupId
    · simp only [hP, if_true] at hrid
      exact mem_of_mem_removeAll _ _ _ hrid
    · simpa [hP] using hrid

theorem storeLe_unbindGroupFromAccount (s : Store) (accountId groupId : String) :
    StoreLe (unbindGroupFromAccount s accountId groupId) s := by
  refine ⟨fun _ _ h2 => h2, fun _ r h2 => ⟨r, h2, rfl, fun _ x => x⟩,
    fun _ g h2 => ⟨g, h2, rfl, fun _ x => x⟩, ?_⟩
  intro aid a h2
  have hau := findAccount_update s (fun a => a.id == accountId)
    (fun a => { a with group_ids := removeAll groupId a.group_ids })
    (fun a => rfl) aid
  simp only [unbindGroupFromAccount] at h2
  rw [hau, Option.map_eq_some'] at h2
  obtain ⟨a0, ha0, hga⟩ := h2
  cases hga
  refine ⟨a0, ha0, ?_, ?_⟩
  · intro rid hrid
    by_cases hP : a0.id == accountId
    · simpa [hP] using hrid
    · simpa [hP] using hrid
  · intro gid hgid
    by_cases hP : a0.id == accountId
    · simp only [hP, if_true] at hgid
      exact mem_of_mem_removeAll _ _ _ hgid
    · simpa [hP] using hgid

theorem storeLe_applyUnbind (u : UnbindOp) (s : Store) : StoreLe (applyUnbind u s) s := by
  cases u with
  | permFromRole rid pid => exact storeLe_unbindPermissionFromRole s rid pid
  | roleFromAccount aid rid => exact storeLe_unbindRoleFromAccount s aid rid
  | roleFromGroup gid rid => exact storeLe_unbindRoleFromGroup s gid rid
  | groupFromAccount aid gid => exact storeLe_unbindGroupFromAccount s aid gid

theorem mem_removeAll_iff (x y : String) (l : List String) :
    y ∈ removeAll x l ↔ y ∈ l ∧ y ≠ x := by
  simp [removeAll, List.mem_filter, bne_iff_ne]

theorem check_eq_of_not_found (s : Store) (aid : String) (t : Option String) (res act : String)
    (ha : findAccount s aid = none) :
    check s aid t res act = { allowed := false, reason := some "unknown account" } := by
  unfold check
  rw [ha]

theorem check_eq_of_found (s : Store) (aid : String) (t : Option String) (res act : String)
    (a : Account) (ha : findAccount s aid = some a) :
    check s aid t res act =
      if (res ++ ":" ++ act) ∈ effectivePermissions s aid t then
        { allowed := true, reason := none }
      else { allowed := false, reason := some "insufficient permissions" } := by
  unfold check
  rw [ha]

theorem mem_effectivePermissions_unbind_cross (s : Store) (accountId roleId T : String)
    (R : Role) (hR : findRole s roleId = some R) (hcross : R.tenant_id ≠ T)
    (aid nm : String) :
    nm ∈ effectivePermissions (unbindRoleFromAccount s accountId roleId) aid (some T) ↔
      nm ∈ effectivePermissions s aid (some T) := by
  have hau : findAccount (unbindRoleFromAccount s accountId roleId) aid =
      Option.map (fun a => if a.id == accountId then
        { a with role_ids := removeAll roleId a.role_ids } else a) (findAccount s aid) :=
    findAccount_update s (fun a => a.id == accountId)
      (fun a => { a with role_ids := removeAll roleId a.role_ids }) (fun a => rfl) aid
  have hfr : ∀ rid, findRole (unbindRoleFromAccount s accountId roleId) rid =
      findRole s rid := fun _ => rfl
  have hfg : ∀ gid, findGroup (unbindRoleFromAccount s accountId roleId) gid =
      findGroup s gid := fun _ => rfl
  have hfp : ∀ pid, findPermission (unbindRoleFromAccount s accountId roleId) pid =
      findPermission s pid := fun _ => rfl
  rw [mem_effectivePermissions, mem_effectivePermissions]
  constructor
  · rintro ⟨a', ha', r, hr, pid, hpid, p, hp, hnm⟩
    rw [hau, Option.map_eq_some'] at ha'
    obtain ⟨a0, ha0, hga⟩ := ha'
    cases hga
    rw [mem_effectiveRoles] at hr
    refine ⟨a0, ha0, r, ?_, pid, hpid, p, by rw [← hfp pid]; exact hp, hnm⟩
    rw [mem_effectiveRoles]
    rcases hr with ⟨⟨rid, hrid, hfr1⟩, ht⟩ | ⟨g, ⟨gid, hgid, hfg1⟩, htg, ⟨rid, hrid, hfr1⟩, ht⟩
    · left
      refine ⟨⟨rid, ?_, by rw [← hfr rid]; exact hfr1⟩, ht⟩
      by_cases hP : a0.id == accountId
      · simp only [hP, if_true] at hrid
        exact mem_of_mem_removeAll _ _ _ hrid
      · simpa [hP] using hrid
    · right
      refine ⟨g, ⟨gid, ?_, by rw [← hfg gid]; exact hfg1⟩, htg,
        ⟨rid, hrid, by rw [← hfr rid]; exact hfr1⟩, ht⟩
      by_cases hP : a0.id == accountId
      · simpa [hP] using hgid
      · simpa [hP] using hgid
  · rintro ⟨a0, ha0, r, hr, pid, hpid, p, hp, hnm⟩
    refine ⟨if a0.id == accountId then
        { a0 with role_ids := removeAll roleId a0.role_ids } else a0,
      by rw [hau, ha0]; rfl, r, ?_, pid, hpid, p, by rw [hfp pid]; exact hp, hnm⟩
    rw [mem_effectiveRoles] at hr ⊢
    rcases hr with ⟨⟨rid, hrid, hfr1⟩, ht⟩ | ⟨g, ⟨gid, hgid, hfg1⟩, htg, ⟨rid, hrid, hfr1⟩, ht⟩
    · left
      refine ⟨⟨rid, ?_, by rw [hfr rid]; exact hfr1⟩, ht⟩
      by_cases hP : a0.id == accountId
      · simp only [hP, if_true]
        rw [mem_removeAll_iff]
        refine ⟨hrid, ?_⟩
        intro hrr
        subst hrr
        rw [hfr1] at hR
        cases hR
        exact hcross (Option.some.inj ht).symm
      · simp only [hP, if_false]
        exact hrid
    · right
      refine ⟨g, ⟨gid, ?_, by rw [hfg gid]; exact hfg1⟩, htg,
        ⟨rid, hrid, by rw [hfr rid]; exact hfr1⟩, ht⟩
      by_cases hP : a0.id == accountId
      · simpa [hP] using hgid
      · simpa [hP] using hgid

theorem check_unbind_cross (s : Store) (accountId roleId T res act : String) (R : Role)
    (hR : findRole s roleId = some R) (hcross : R.tenant_id ≠ T) :
    check s accountId (some T) res act =
      check (unbindRoleFromAccount s accountId roleId) accountId (some T) res act := by
  have hau : findAccount (unbindRoleFromAccount s accountId roleId) accountId =
      Option.map (fun a => if a.id == accountId then
        { a with role_ids := removeAll roleId a.role_ids } else a)
      (findAccount s accountId) :=
    findAccount_update s (fun a => a.id == accountId)
      (fun a => { a with role_ids := removeAll roleId a.role_ids }) (fun a => rfl) accountId
  cases ha : findAccount s accountId with
  | none =>
      rw [check_eq_of_not_found s accountId (some T) res act ha,
        check_eq_of_not_found _ accountId (some T) res act (by rw [hau, ha]; rfl)]
  | some a =>
      rw [check_eq_of_found s accountId (some T) res act a ha,
        check_eq_of_found _ accountId (some T) res act _ (by rw [hau, ha]; rfl)]
      by_cases hm : (res ++ ":" ++ act) ∈ effectivePermissions s accountId (some T)
      · rw [if_pos hm, if_pos ((mem_effectivePermissions_unbind_cross s accountId roleId T R
          hR hcross accountId _).mpr hm)]
      · rw [if_neg hm, if_neg (fun hc => hm ((mem_effectivePermissions_unbind_cross s accountId
          roleId T R hR hcross accountId _).mp hc))]

theorem bindPermissionToRole_idem (s s2 : Store) (roleId pid : String)
    (h : bindPermissionToRole s roleId pid = Except.ok s2) :
    bindPermissionToRole s2 roleId pid = Except.ok s2 := by
  unfold bindPermissionToRole at h
  cases hr : findRole s roleId with
  | none => rw [hr] at h; cases hp : findPermission s pid <;> rw [hp] at h <;> cases h
  | some r0 =>
    cases hp : findPermission s pid with
    | none => rw [hr, hp] at h; cases h
    | some p0 =>
      rw [hr, hp] at h
      cases h
      have hPr0 : (r0.id == roleId) = true := by
        have h3 : List.find? (fun r => r.id == roleId) s.roles = some r0 := hr
        have h4 := List.find?_some h3
        exact h4
      have hr2 : findRole { s with roles := updateIf (fun r => r.id == roleId) (fun r => { r with permission_ids := insertIfAbsent pid r.permission_ids }) s.roles } roleId = some { r0 with permission_ids := insertIfAbsent pid r0.permission_ids } := by
        rw [findRole_update s (fun r => r.id == roleId)
          (fun r => { r with permission_ids := insertIfAbsent pid r.permission_ids })
          (fun r => rfl) roleId, hr]
        exact congrArg some (if_pos hPr0)
      have hp2 : findPermission { s with roles := updateIf (fun r => r.id == roleId) (fun r => { r with permission_ids := insertIfAbsent pid r.permission_ids }) s.roles } pid = some p0 := hp
      unfold bindPermissionToRole
      rw [hr2, hp2]
      exact congrArg (fun l => Except.ok ({ s with roles := l } : Store))
        (updateIf_updateIf (fun r => r.id == roleId)
          (fun r => { r with permission_ids := insertIfAbsent pid r.permission_ids })
          (fun x => by simp only [insertIfAbsent_insertIfAbsent]) s.roles)

theorem bindRoleToAccount_idem (s s2 : Store) (accountId roleId : String)
    (h : bindRoleToAccount s accountId roleId = Except.ok s2) :
    bindRoleToAccount s2 accountId roleId = Except.ok s2 := by
  unfold bindRoleToAccount at h
  cases ha : findAccount s accountId with
  | none => rw [ha] at h; cases hr : findRole s roleId <;> rw [hr] at h <;> cases h
  | some a0 =>
    cases hr : findRole s roleId with
    | none => rw [ha, hr] at h; cases h
    | some r0 =>
      rw [ha, hr] at h
      cases h
      have hPa0 : (a0.id == accountId) = true := by
        have h3 : List.find? (fun a => a.id == accountId) s.accounts = some a0 := ha
        have h4 := List.find?_some h3
        exact h4
      have ha2 : findAccount { s with accounts := updateIf (fun a => a.id == accountId) (fun a => { a with role_ids := insertIfAbsent roleId a.role_ids }) s.accounts } accountId = some { a0 with role_ids := insertIfAbsent roleId a0.role_ids } := by
        rw [findAccount_update s (fun a => a.id == accountId)
          (fun a => { a with role_ids := insertIfAbsent roleId a.role_ids })
          (fun a => rfl) accountId, ha]
        exact congrArg some (if_pos hPa0)
      have hr2 : findRole { s with accounts := updateIf (fun a => a.id == accountId) (fun a => { a with role_ids := insertIfAbsent roleId a.role_ids }) s.accounts } roleId = some r0 := hr
      unfold bindRoleToAccount
      rw [ha2, hr2]
      exact congrArg (fun l => Except.ok ({ s with accounts := l } : Store))
        (updateIf_updateIf (fun a => a.id == accountId)
          (fun a => { a with role_ids := insertIfAbsent roleId a.role_ids })
          (fun x => by simp only [insertIfAbsent_insertIfAbsent]) s.accounts)

theorem bindRoleToGroup_idem (s s2 : Store) (groupId roleId : String)
    (h : bindRoleToGroup s groupId roleId = Except.ok s2) :
    bindRoleToGroup s2 groupId roleId = Except.ok s2 := by
  unfold bindRoleToGroup at h
  cases hg : findGroup s groupId with
  | none => rw [hg] at h; cases hr : findRole s roleId <;> rw [hr] at h <;> cases h
  | some g0 =>
    cases hr : findRole s roleId with
    | none => rw [hg, hr] at h; cases h
    | some r0 =>
      rw [hg, hr] at h
      cases h
      have hPg0 : (g0.id == groupId) = true := by
        have h3 : List.find? (fun g => g.id == groupId) s.groups = some g0 := hg
        have h4 := List.find?_some h3
        exact h4
      have hg2 : findGroup { s with groups := updateIf (fun g => g.id == groupId) (fun g => { g with role_ids := insertIfAbsent roleId g.role_ids }) s.groups } groupId = some { g0 with role_ids := insertIfAbsent roleId g0.role_ids } := by
        rw [findGroup_update s (fun g => g.id == groupId)
          (fun g => { g with role_ids := insertIfAbsent roleId g.role_ids })
          (fun g => rfl) groupId, hg]
        exact congrArg some (if_pos hPg0)
      have hr2 : findRole { s with groups := updateIf (fun g => g.id == groupId) (fun g => { g with role_ids := insertIfAbsent roleId g.role_ids }) s.groups } roleId = some r0 := hr
      unfold bindRoleToGroup
      rw [hg2, hr2]
      exact congrArg (fun l => Except.ok ({ s with groups := l } : Store))
        (updateIf_updateIf (fun g => g.id == groupId)
          (fun g => { g with role_ids := insertIfAbsent roleId g.role_ids })
          (fun x => by simp only [insertIfAbsent_insertIfAbsent]) s.groups)

theorem bindGroupToAccount_idem (s s2 : Store) (accountId groupId : String)
    (h : bindGroupToAccount s accountId groupId = Except.ok s2) :
    bindGroupToAccount s2 accountId groupId = Except.ok s2 := by
  unfold bindGroupToAccount at h
  cases ha : findAccount s accountId with
  | none => rw [ha] at h; cases hg : findGroup s groupId <;> rw [hg] at h <;> cases h
  | some a0 =>
    cases hg : findGroup s groupId with
    | none => rw [ha, hg] at h; cases h
    | some g0 =>
      rw [ha, hg] at h
      cases h
      have hPa0 : (a0.id == accountId) = true := by
        have h3 : List.find? (fun a => a.id == accountId) s.accounts = some a0 := ha
        have h4 := List.find?_some h3
        exact h4
      have ha2 : findAccount { s with accounts := updateIf (fun a => a.id == accountId) (fun a => { a with group_ids := insertIfAbsent groupId a.group_ids }) s.accounts } accountId = some { a0 with group_ids := insertIfAbsent groupId a0.group_ids } := by
        rw [findAccount_update s (fun a => a.id == accountId)
          (fun a => { a with group_ids := insertIfAbsent groupId a.group_ids })
          (fun a => rfl) accountId, ha]
        exact congrArg some (if_pos hPa0)
      have hg2 : findGroup { s with accounts := updateIf (fun a => a.id == accountId) (fun a => { a with group_ids := insertIfAbsent groupId a.group_ids }) s.accounts } groupId = some g0 := hg
      unfold bindGroupToAccount
      rw [ha2, hg2]
      exact congrArg (fun l => Except.ok ({ s with accounts := l } : Store))
        (updateIf_updateIf (fun a => a.id == accountId)
          (fun a => { a with group_ids := insertIfAbsent groupId a.group_ids })
          (fun x => by simp only [insertIfAbsent_insertIfAbsent]) s.accounts)

theorem runBind_idem (b : BindOp) (s s2 : Store) (h : runBind b s = Except.ok s2) :
    runBind b s2 = Except.ok s2 := by
  cases b with
  | permToRole rid pid => exact bindPermissionToRole_idem s s2 rid pid h
  | roleToAccount aid rid => exact bindRoleToAccount_idem s s2 aid rid h
  | roleToGroup gid rid => exact bindRoleToGroup_idem s s2 gid rid h
  | groupToAccount aid gid => exact bindGroupToAccount_idem s s2 aid gid h

/-- C1: tenant isolation — for an account with tenant T holding a role bound
to it whose own tenant differs from T, the verdict of a check against T is
identical to the verdict in the state where that role is unbound from the
account, so a cross-tenant role binding never causes an allowed verdict; in
particular, in the integration scenario, account x (tenant t2) bound to role
reader (tenant t1) is denied doc read against t2. -/
theorem claim_tenant_isolation (s : Store) (aid rid T res act : String)
    (a : Account) (R : Role)
    (ha : findAccount s aid = some a) (haT : a.tenant_id = T)
    (hbound : rid ∈ a.role_ids)
    (hR : findRole s rid = some R) (hcross : R.tenant_id ≠ T) :
    check s aid (some T) res act =
      check (unbindRoleFromAccount s aid rid) aid (some T) res act ∧
    (check scenarioStore "AT2" (some "t2") "/docs/1" "read").allowed = false :=
  ⟨check_unbind_cross s aid rid T res act R hR hcross, by decide⟩

/-- Witness for C1 at the integration scenario: account x (AT2, tenant t2)
with the cross-tenant binding of role reader (RR, tenant t1). -/
theorem claim_tenant_isolation_witness :
    (check scenarioStore "AT2" (some "t2") "/docs/1" "read" =
      check (unbindRoleFromAccount scenarioStore "AT2" "RR") "AT2" (some "t2") "/docs/1" "read") ∧
    (check scenarioStore "AT2" (some "t2") "/docs/1" "read").allowed = false :=
  claim_tenant_isolation scenarioStore "AT2" "RR" "t2" "/docs/1" "read"
    { id := "AT2", tenant_id := "t2", username := "x", email := "x@example.com", role_ids := ["RR"], group_ids := [] }
    { id := "RR", tenant_id := "t1", name := "reader", description := "", permission_ids := ["PR"] }
    (by decide) (by decide) (by decide) (by decide) (by decide)

/-- C2: permission matching is exact string equality — for a check whose
account exists, the verdict is allowed exactly when the string
resource ++ ":" ++ action is an element of the account's effective
permission-name set for the check tenant. -/
theorem claim_exact_match (s : Store) (aid T res act : String) (a : Account)
    (ha : findAccount s aid = some a) :
    (check s aid (some T) res act).allowed = true ↔
      (res ++ ":" ++ act) ∈ effectivePermissions s aid (some T) := by
  rw [check_allowed_iff]
  exact ⟨fun h2 => h2.2, fun h2 => ⟨⟨a, ha⟩, h2⟩⟩

/-- Witness for C2 at the integration scenario: account alice (AA). -/
theorem claim_exact_match_witness :
    (check scenarioStore "AA" (some "t1") "doc" "read").allowed = true ↔
      ("doc" ++ ":" ++ "read") ∈ effectivePermissions scenarioStore "AA" (some "t1") :=
  claim_exact_match scenarioStore "AA" "t1" "doc" "read"
    { id := "AA", tenant_id := "t1", username := "alice", email := "alice@example.com", role_ids := ["RR"], group_ids := [] }
    (by decide)

/-- C3 counterexample: in the integration scenario the claim expects
check(alice, t1, "/docs/1", "read") to be true, but the decision algorithm
matches the requested string "/docs/1:read" by exact equality against the
stored permission names doc:read and doc:write, so the check denies. -/
theorem claim_scenario_counterexample :
    (check scenarioStore "AA" (some "t1") "/docs/1" "read").allowed = false := by decide

/-- C3 amended: with exact string matching, all four scenario checks on
resource "/docs/1" deny (no permission is named "/docs/1:read" or
"/docs/1:write"); with resource "doc" — so that resource:action equals the
stored permission names — the four checks return exactly true, false, true,
and false, the last being the cross-tenant deny. -/
theorem claim_scenario_amended :
    (check scenarioStore "AA" (some "t1") "/docs/1" "read").allowed = false ∧
    (check scenarioStore "AA" (some "t1") "/docs/1" "write").allowed = false ∧
    (check scenarioStore "AB" (some "t1") "/docs/1" "write").allowed = false ∧
    (check scenarioStore "AT2" (some "t2") "/docs/1" "read").allowed = false ∧
    (check scenarioStore "AA" (some "t1") "doc" "read").allowed = true ∧
    (check scenarioStore "AA" (some "t1") "doc" "write").allowed = false ∧
    (check scenarioStore "AB" (some "t1") "doc" "write").allowed = true ∧
    (check scenarioStore "AT2" (some "t2") "doc" "read").allowed = false := by decide

/-- C4 counterexample: role r (tenant t1) is bound to group g, g is bound to
account a, and permission p (doc:read) is bound to r, yet
check(a, tenant(r), "doc", "read") denies, because group g lives in tenant
t2 and step 3 of the algorithm filters groups by the check tenant. -/
theorem claim_group_transitivity_counterexample :
    findAccount groupMismatchStore "a" = some accountA ∧
    findGroup groupMismatchStore "g" = some groupGmis ∧
    findRole groupMismatchStore "r" = some roleR ∧
    findPermission groupMismatchStore "p" = some permP ∧
    "g" ∈ accountA.group_ids ∧ "r" ∈ groupGmis.role_ids ∧ "p" ∈ roleR.permission_ids ∧
    permP.name = "doc" ++ ":" ++ "read" ∧ roleR.tenant_id = "t1" ∧
    (check groupMismatchStore "a" (some "t1") "doc" "read").allowed = false := by decide

/-- C4 amended: group inheritance transitivity holds whenever the group's
tenant equals the role's tenant — for role r bound to group g with
tenant(g) = tenant(r), g bound to account a, and permission p bound to r
with name resource:action, check(a, tenant(r), resource, action) allows,
regardless of whether a also holds r directly. -/
theorem claim_group_transitivity_amended (s : Store) (aid gid rid pid res act : String)
    (a : Account) (g : Group) (r : Role) (p : Permission)
    (ha : findAccount s aid = some a) (hg : findGroup s gid = some g)
    (hr : findRole s rid = some r) (hp : findPermission s pid = some p)
    (hga : gid ∈ a.group_ids) (hrg : rid ∈ g.role_ids) (hpr : pid ∈ r.permission_ids)
    (htenant : g.tenant_id = r.tenant_id) (hname : p.name = res ++ ":" ++ act) :
    (check s aid (some r.tenant_id) res act).allowed = true := by
  rw [check_allowed_iff]
  refine ⟨⟨a, ha⟩, ?_⟩
  rw [mem_effectivePermissions]
  refine ⟨a, ha, r, ?_, pid, hpr, p, hp, hname⟩
  rw [mem_effectiveRoles]
  exact Or.inr ⟨g, ⟨gid, hga, hg⟩, by rw [htenant], ⟨rid, hrg, hr⟩, rfl⟩

/-- Witness for the amended C4: the same group-inheritance store with the
group in the matching tenant t1. -/
theorem claim_group_transitivity_witness :
    (check groupOkStore "a" (some roleR.tenant_id) "doc" "read").allowed = true :=
  claim_group_transitivity_amended groupOkStore "a" "g" "r" "p" "doc" "read"
    accountA groupGok roleR permP (by decide) (by decide) (by decide) (by decide)
    (by decide) (by decide) (by decide) (by decide) (by decide)

/-- C5: a check request with an empty resource or action string is rejected
with a validation error before evaluation and is never answered with a
normal allowed=false response. -/
theorem claim_validation_reject (s : Store) (aid : String) (t : Option String)
    (res act : String) (h : res = "" ∨ act = "") :
    (∃ msg, checkEndpoint s aid t res act = Except.error (ApiError.validationError msg)) ∧
    ∀ resp : CheckResult, checkEndpoint s aid t res act ≠ Except.ok resp := by
  unfold checkEndpoint
  by_cases hres : res = ""
  · rw [if_pos hres]
    exact ⟨⟨"empty resource", rfl⟩, fun resp hok => Except.noConfusion hok⟩
  · have hact : act = "" := by
      rcases h with h | h
      · exact absurd h hres
      · exact h
    rw [if_neg hres, if_pos hact]
    exact ⟨⟨"empty action", rfl⟩, fun resp hok => Except.noConfusion hok⟩

/-- Witness for C5: empty resource in the integration scenario store. -/
theorem claim_validation_reject_witness :
    (∃ msg, checkEndpoint scenarioStore "AA" (some "t1") "" "read" =
      Except.error (ApiError.validationError msg)) ∧
    ∀ resp : CheckResult, checkEndpoint scenarioStore "AA" (some "t1") "" "read" ≠
      Except.ok resp :=
  claim_validation_reject scenarioStore "AA" (some "t1") "" "read" (Or.inl rfl)

/-- C6: a check naming an unknown account returns a normal response with
allowed=false and reason "unknown account"; through the endpoint (with
non-empty resource and action) it is a successful response, not an error. -/
theorem claim_unknown_account (s : Store) (aid : String) (t : Option String)
    (res act : String) (h : findAccount s aid = none) :
    check s aid t res act = { allowed := false, reason := some "unknown account" } ∧
    (res ≠ "" → act ≠ "" → checkEndpoint s aid t res act =
      Except.ok { allowed := false, reason := some "unknown account" }) := by
  refine ⟨check_eq_of_not_found s aid t res act h, fun hres hact => ?_⟩
  unfold checkEndpoint
  rw [if_neg hres, if_neg hact, check_eq_of_not_found s aid t res act h]

/-- Witness for C6: the account id "nobody" does not exist in the scenario
store. -/
theorem claim_unknown_account_witness :
    check scenarioStore "nobody" (some "t1") "doc" "read" =
      { allowed := false, reason := some "unknown account" } ∧
    checkEndpoint scenarioStore "nobody" (some "t1") "doc" "read" =
      Except.ok { allowed := false, reason := some "unknown account" } := by
  have h := claim_unknown_account scenarioStore "nobody" (some "t1") "doc" "read" (by decide)
  exact ⟨h.1, h.2 (by decide) (by decide)⟩

/-- C7: a check whose tenant is absent matches no role or group tenant and
therefore denies, for every store, account, resource and action. -/
theorem claim_absent_tenant_denies (s : Store) (aid res act : String) :
    (check s aid none res act).allowed = false := by
  cases ha : findAccount s aid with
  | none => rw [check_eq_of_not_found s aid none res act ha]
  | some a =>
      have hnm : ¬ ((res ++ ":" ++ act) ∈ effectivePermissions s aid none) := by
        intro hm
        rw [mem_effectivePermissions] at hm
        obtain ⟨a2, _, r, hr, _⟩ := hm
        rw [mem_effectiveRoles] at hr
        rcases hr with ⟨_, ht⟩ | ⟨g, _, htg, _, _⟩
        · exact Option.noConfusion ht
        · exact Option.noConfusion htg
      rw [check_eq_of_found s aid none res act a ha, if_neg hnm]

/-- C8: idempotence of binds — if any of the four binding operations
succeeds and produces a store, running the same operation with identical
arguments on that store succeeds again and leaves it exactly unchanged. -/
theorem claim_bind_idempotent (b : BindOp) (s s2 : Store)
    (h : runBind b s = Except.ok s2) :
    runBind b s2 = Except.ok s2 :=
  runBind_idem b s s2 h

/-- Witness for C8: rebinding permission doc:read to role reader after the
first bind of the integration script. -/
theorem claim_bind_idempotent_witness :
    runBind (BindOp.permToRole "RR" "PR") scenarioStore1 = Except.ok scenarioStore1 :=
  claim_bind_idempotent (BindOp.permToRole "RR" "PR") scenarioBase scenarioStore1 rfl

/-- C9: monotonicity — applying any bind operation preserves every
previously-allowed check, and applying any unbind operation never turns a
previously-denied check into an allowed one (equivalently, a check allowed
after a removal was already allowed before it). -/
theorem claim_monotonicity (b : BindOp) (u : UnbindOp) (s : Store) (aid : String)
    (t : Option String) (res act : String) :
    ((check s aid t res act).allowed = true →
      (check (applyBind b s) aid t res act).allowed = true) ∧
    ((check (applyUnbind u s) aid t res act).allowed = true →
      (check s aid t res act).allowed = true) :=
  ⟨check_allowed_mono s (applyBind b s) (storeLe_applyBind b s) aid t res act,
   check_allowed_mono (applyUnbind u s) s (storeLe_applyUnbind u s) aid t res act⟩

/-- Witness for C9: binding role editor to bob and unbinding role reader
from bob both preserve alice's allowed doc read in the scenario store. -/
theorem claim_monotonicity_witness :
    (check (applyBind (BindOp.roleToAccount "AB" "RE") scenarioStore) "AA" (some "t1") "doc" "read").allowed = true ∧
    (check scenarioStore "AA" (some "t1") "doc" "read").allowed = true := by
  have h := claim_monotonicity (BindOp.roleToAccount "AB" "RE")
    (UnbindOp.roleFromAccount "AB" "RR") scenarioStore "AA" (some "t1") "doc" "read"
  exact ⟨h.1 (by decide), h.2 (by decide)⟩

namespace Frontend

/-- C10: the frontend checkAccess issues exactly one POST, to the path
"/access/check", whose body is the request object serialized field by field
(with tenant_id omitted rather than defaulted when absent, and carried
verbatim when present), and resolves to exactly the server's response body
with no reinterpretation. -/
theorem claim_checkaccess_contract (server : HttpPost → AccessCheckResponse)
    (r : AccessCheckRequest) :
    (checkAccess server r).1 =
      [{ path := "/access/check", body := serializeAccessCheckRequest r }] ∧
    (checkAccess server r).2 =
      server { path := "/access/check", body := serializeAccessCheckRequest r } ∧
    (r.tenant_id = none →
      (serializeAccessCheckRequest r).map Prod.fst = ["account_id", "resource", "action"]) ∧
    ∀ t2, r.tenant_id = some t2 → ("tenant_id", t2) ∈ serializeAccessCheckRequest r := by
  refine ⟨rfl, rfl, ?_, ?_⟩
  · intro hnone
    unfold serializeAccessCheckRequest
    rw [hnone]
    rfl
  · intro t2 ht2
    unfold serializeAccessCheckRequest
    rw [ht2]
    simp

/-- Witness for C10: a request without tenant_id issues the single POST and
its serialized body omits the tenant_id key. -/
theorem claim_checkaccess_witness :
    (checkAccess (fun _ => { allowed := false, reason := none }) { account_id := "AA", resource := "/docs/1", action := "read", tenant_id := none }).1 =
      [{ path := "/access/check", body := serializeAccessCheckRequest { account_id := "AA", resource := "/docs/1", action := "read", tenant_id := none } }] ∧
    (serializeAccessCheckRequest { account_id := "AA", resource := "/docs/1", action := "read", tenant_id := none }).map Prod.fst =
      ["account_id", "resource", "action"] := by
  have h := claim_checkaccess_contract (fun _ => { allowed := false, reason := none })
    { account_id := "AA", resource := "/docs/1", action := "read", tenant_id := none }
  exact ⟨h.1, h.2.2.1 rfl⟩

end Frontend

end AuthOne
